import Mathlib

/-!
Verification development for the zeno-build experiment-sweep driver
(examples/transcription/modeling.py and examples/chatbot/main.py), a
shallow embedding of the cache-backed sweep machinery described in the
accompanying design document.  Filesystem state is made explicit (one
`CacheRoot` record per fingerprint root), stateful functions become
state-passing functions, and Python exceptions become `Except`.
-/

namespace ZenoBuild

/-! ## Data model: per-fingerprint cache artifacts -/

/-- Predictions stored in a `{file_root}.json` output artifact. -/
abbrev Predictions := List String

/-- Scalar metric value stored in a `{id}.eval` artifact. -/
abbrev MetricVal := Rat

/-- Outcome of one backend invocation (`transcribe_audio` /
`generate_from_chat_prompt`): either a list of predictions or a raised
exception carrying its traceback text. -/
inductive BackendOutcome where
  | ok (preds : Predictions)
  | raises (tb : String)
deriving DecidableEq

/-- The on-disk artifact set at one fingerprint root: the output record
`{root}.json` (contents, when present), the `{root}.lock` marker, and the
`{root}.fail` marker (traceback contents, when present). -/
structure CacheRoot where
  json : Option Predictions
  lock : Bool
  fail : Option String
deriving DecidableEq

/-- Modelled from the spec: `CacheLock.__enter__` of `zeno_build.cache_utils`
(not part of the excerpt).  Acquisition atomically creates the lock marker
and succeeds only when no lock marker is present (another claimant) and no
failure marker is present (failed entries are excluded from re-attempt,
design document sections 4.2 and 8 "Failure terminality"). -/
def cacheLockAcquire (s : CacheRoot) : Bool := !s.lock && !s.fail.isSome

/-- Modelled from the spec: `fail_cache` of `zeno_build.cache_utils` (not
part of the excerpt) writes a terminal failure marker holding the
diagnostic payload at the given root. -/
def fail_cache (s : CacheRoot) (tb : String) : CacheRoot :=
  { s with fail := some tb }

/-- Result of one `make_predictions` call: the Python return value (or the
propagated exception's traceback), the final artifact state at the root,
and whether the backend was invoked / the lock was attempted. -/
structure MPRun where
  ret : Except String (Option Predictions)
  final : CacheRoot
  backendInvoked : Bool
  lockAttempted : Bool

/-- `make_predictions` of examples/transcription/modeling.py, with the
backend call abstracted as a `BackendOutcome` and the filesystem at the
entry's fingerprint root passed explicitly.  If the output artifact exists
the stored predictions are returned at once; otherwise the lock is
attempted: on contention `None` is returned, on acquisition the backend
runs, a failure writes the failure marker through `fail_cache` and
re-raises, success writes the output artifact. -/
def make_predictions (backend : BackendOutcome) (s : CacheRoot) : MPRun :=
  match s.json with
  | some preds => ⟨.ok (some preds), s, false, false⟩
  | none =>
    if cacheLockAcquire s then
      match backend with
      | .raises tb => ⟨.error tb, fail_cache s tb, true, true⟩
      | .ok preds => ⟨.ok (some preds), { s with json := some preds }, true, true⟩
    else ⟨.ok none, s, false, true⟩

/-! ## Entry states (design document section 3, `CacheEntry`) -/

/-- An entry is completed strictly by presence of its output artifact. -/
def completedEntry (s : CacheRoot) : Bool := s.json.isSome

/-- Locked-in-progress: lock marker present, no output yet. -/
def inProgressEntry (s : CacheRoot) : Bool := !s.json.isSome && s.lock

/-- Untried: no artifacts at all at the root. -/
def untriedEntry (s : CacheRoot) : Bool :=
  !s.json.isSome && !s.lock && !s.fail.isSome

/-! ## Metric memoization (examples/chatbot/main.py, eval read/write) -/

/-- Modelled from the spec: `ExhaustiveOptimizer.calculate_metric` (the
optimizer class of zeno_build is not part of the excerpt) is a pure
function of contexts, labels and predictions — here literally the
application of the configured metric function, taking no cache state and
returning none. -/
def calculate_metric {C : Type} (metricFn : List C → List String → Predictions → MetricVal)
    (contexts : List C) (labels : List String) (preds : Predictions) : MetricVal :=
  metricFn contexts labels preds

/-- The eval-memoization step of `chatbot_main`: if the `{id}.eval` artifact
exists its stored scalar is read back, otherwise the metric value is
computed and persisted.  The eval artifacts are a map from run id to stored
scalar; the returned flag records whether the metric was computed. -/
def evalStep {A : Type} [DecidableEq A] (metric : MetricVal) (i : A)
    (ec : A → Option MetricVal) : MetricVal × (A → Option MetricVal) × Bool :=
  match ec i with
  | some v => (v, ec, false)
  | none => (metric, fun x => if x = i then some metric else ec x, true)

/-- Repeated sweep passes over the same eval cache for one run id; returns
the final eval-artifact state and the number of passes that actually
computed the metric. -/
def evalPasses {A : Type} [DecidableEq A] (metric : MetricVal) (i : A)
    (ec : A → Option MetricVal) : Nat → (A → Option MetricVal) × Nat
  | 0 => (ec, 0)
  | n + 1 =>
    let r := evalStep metric i ec
    let rest := evalPasses metric i r.2.1 n
    (rest.1, (if r.2.2 then 1 else 0) + rest.2)

/-! ## Exhaustive optimizer (modelled from the spec, sections 4.3 and 8) -/

/-- Modelled from the spec: the `ExhaustiveOptimizer` of
`zeno_build.optimizers.exhaustive` (not part of the excerpt), reduced to
what the driver loop uses: a deterministic enumeration of the search space
and an optional trial budget. -/
structure ExhaustiveOptimizer (A : Type) where
  enum : List A
  num_trials : Option Nat

/-- An entry counted toward the trial budget: completed, and optionally
locked-in-progress. -/
def claimedForBudget (includeInProgress : Bool) (s : CacheRoot) : Bool :=
  completedEntry s || (includeInProgress && inProgressEntry s)

/-- Number of enumerated assignments whose cache entries count toward the
budget. -/
def claimedCount {A : Type} (opt : ExhaustiveOptimizer A) (c : A → CacheRoot)
    (includeInProgress : Bool) : Nat :=
  (opt.enum.filter (fun a => claimedForBudget includeInProgress (c a))).length

/-- The trial budget is met when it is set and the claimed count reaches it. -/
def budgetMet {A : Type} (opt : ExhaustiveOptimizer A) (c : A → CacheRoot)
    (includeInProgress : Bool) : Bool :=
  match opt.num_trials with
  | none => false
  | some n => decide (n ≤ claimedCount opt c includeInProgress)

/-- No untried assignment is left in the given portion of the enumeration. -/
def noUntried {A : Type} (c : A → CacheRoot) (l : List A) : Bool :=
  l.all (fun a => !untriedEntry (c a))

/-- Modelled from the spec: `ExhaustiveOptimizer.is_complete` (not part of
the excerpt): true iff the claimed count meets the budget or the space is
fully enumerated with no untried assignments left. -/
def is_complete {A : Type} (opt : ExhaustiveOptimizer A) (c : A → CacheRoot)
    (includeInProgress : Bool) : Bool :=
  budgetMet opt c includeInProgress || noUntried c opt.enum

/-- Scan of the remaining enumeration for the first untried assignment,
skipping entries that are completed, locked-in-progress or failed; returns
the assignment together with the enumeration suffix after it. -/
def firstUntried {A : Type} (c : A → CacheRoot) : List A → Option (A × List A)
  | [] => none
  | a :: rs => if untriedEntry (c a) then some (a, rs) else firstUntried c rs

/-- Modelled from the spec: `ExhaustiveOptimizer.get_parameters` (not part
of the excerpt): advances the cursor over the enumeration, skipping
completed, in-progress and failed fingerprints; none when the budget is met
or no untried assignment remains. -/
def get_parameters {A : Type} (opt : ExhaustiveOptimizer A) (c : A → CacheRoot)
    (rest : List A) : Option (A × List A) :=
  if budgetMet opt c true then none else firstUntried c rest

/-! ## The prediction loop of chatbot_main (examples/chatbot/main.py) -/

/-- What one loop iteration did after `make_predictions` returned: skipped
the run (printed the skip message and continued), or evaluated it (read or
computed the metric). -/
inductive StepAction where
  | skipped
  | evaluated (v : MetricVal)
deriving DecidableEq

/-- Result of one loop body: either the backend exception propagated out of
`make_predictions` (aborting the loop), or a normal continuation carrying
the action taken and the updated cache and eval-artifact states. -/
inductive BodyResult (A : Type) where
  | raised (tb : String) (c : A → CacheRoot) (ec : A → Option MetricVal)
  | next (act : StepAction) (c : A → CacheRoot) (ec : A → Option MetricVal)

/-- Pointwise update of the cache map at one fingerprint. -/
def updateMap {A : Type} [DecidableEq A] (a : A) (v : CacheRoot)
    (c : A → CacheRoot) : A → CacheRoot :=
  fun x => if x = a then v else c x

/-- One iteration of the prediction loop for assignment `a`: run
`make_predictions`; a `None` result is the skip signal and continues; a
result triggers the eval-memoization step; a raised exception propagates. -/
def loopBody {A : Type} [DecidableEq A] (run : A → BackendOutcome)
    (metricOf : Predictions → MetricVal) (a : A)
    (c : A → CacheRoot) (ec : A → Option MetricVal) : BodyResult A :=
  let r := make_predictions (run a) (c a)
  let c2 := updateMap a r.final c
  match r.ret with
  | .error tb => .raised tb c2 ec
  | .ok none => .next .skipped c2 ec
  | .ok (some preds) =>
    let e := evalStep (metricOf preds) a ec
    .next (.evaluated e.1) c2 e.2.1

/-- How the prediction loop ended: `is_complete` became true,
`get_parameters` returned none, or a backend exception aborted it. -/
inductive LoopExit where
  | complete
  | exhausted
  | aborted (tb : String)
deriving DecidableEq

/-- The prediction loop of `chatbot_main` (lines 92-124): while the sweep
is not complete, pull the next untried assignment; stop when none is left;
otherwise run the body and continue on the remaining enumeration.  Returns
the number of iterations performed and how the loop exited. -/
def sweepLoop {A : Type} [DecidableEq A] (opt : ExhaustiveOptimizer A)
    (run : A → BackendOutcome) (metricOf : Predictions → MetricVal)
    (c : A → CacheRoot) (ec : A → Option MetricVal) (rest : List A) :
    Nat × LoopExit :=
  if is_complete opt c true then (0, .complete)
  else
    match h : get_parameters opt c rest with
    | none => (0, .exhausted)
    | some (a, rs) =>
      match loopBody run metricOf a c ec with
      | .raised tb _ _ => (1, .aborted tb)
      | .next _ c2 ec2 =>
        let k := sweepLoop opt run metricOf c2 ec2 rs
        (k.1 + 1, k.2)
termination_by rest.length
decreasing_by
  simp only [get_parameters] at h
  split at h
  · exact absurd h (by simp)
  · induction rest with
    | nil => simp [firstUntried] at h
    | cons x xs ih =>
      rw [firstUntried] at h
      by_cases hx : untriedEntry (c x) = true
      · simp [hx] at h
        simp [h.2]
      · simp [hx] at h
        exact Nat.lt_succ_of_lt (ih h)

/-! ## Reporting collection (examples/chatbot/main.py, lines 126-147) -/

/-- A chatbot-side cache entry: the parameters record stored in the
`.zbp` file, the output artifact, and the lock and failure markers. -/
structure ChatEntry where
  params : List (String × String)
  json : Option Predictions
  lock : Bool
  fail : Bool
deriving DecidableEq

/-- Modelled from the spec: `get_valid_param_files` of the search space
(not part of the excerpt): the parameter files whose entries are completed
(output artifact present), plus — only when `includeInProgress` — the
locked-in-progress ones; failed entries are excluded. -/
def get_valid_param_files (includeInProgress : Bool) (entries : List ChatEntry) :
    List ChatEntry :=
  entries.filter (fun e =>
    e.json.isSome || (includeInProgress && (!e.json.isSome && e.lock && !e.fail)))

/-- A completed run reified for reporting: parameters, predictions and a
derived display name. -/
structure ExperimentRun where
  parameters : List (String × String)
  predictions : Predictions
  name : String
deriving DecidableEq

instance : DecidableRel (fun x y : ExperimentRun => x.name ≤ y.name) :=
  fun x y => inferInstanceAs (Decidable (x.name ≤ y.name))

instance : IsTotal ExperimentRun (fun x y => x.name ≤ y.name) :=
  ⟨fun a b => le_total a.name b.name⟩

instance : IsTrans ExperimentRun (fun x y => x.name ≤ y.name) :=
  ⟨fun _ _ _ h1 h2 => le_trans h1 h2⟩

/-- Build one reporting record from a completed entry, deriving the display
name from the loaded parameters. -/
def runOfEntry (nameOf : List (String × String) → String) (e : ChatEntry) :
    ExperimentRun :=
  ⟨e.params, e.json.getD [], nameOf e.params⟩

/-- The reporting collection of `chatbot_main`: one record per valid
parameter file gathered without in-progress entries, sorted ascending by
display name (Python's stable sort modelled by insertion sort). -/
def buildResults (nameOf : List (String × String) → String)
    (entries : List ChatEntry) : List ExperimentRun :=
  List.insertionSort (fun x y => x.name ≤ y.name)
    ((get_valid_param_files false entries).map (runOfEntry nameOf))

/-! ## Search-space override (examples/chatbot/main.py, lines 38-53) -/

/-- A search dimension: an ordered candidate list, a single fixed value, or
some other kind of axis (numeric ranges and the like, which the override
code never produces). -/
inductive Dimension where
  | categorical (values : List String)
  | constant (value : String)
  | discrete (values : List Int)
deriving DecidableEq

/-- The dimensions dictionary of a search space, as an insertion-ordered
association list. -/
abbrev Dims := List (String × Dimension)

/-- A combinatorial search space: a named mapping of dimensions. -/
structure CombinatorialSearchSpace where
  dimensions : Dims
deriving DecidableEq

/-- Dictionary lookup (`d[k]` returns the value, or raises `KeyError`,
here `none`). -/
def lookupKey {B : Type} (n : String) : List (String × B) → Option B
  | [] => none
  | (k, d) :: rest => if k = n then some d else lookupKey n rest

/-- Dictionary assignment to an existing key (`d[k] = v`): the value at the
key is replaced in place, every other binding untouched. -/
def setDim (n : String) (d : Dimension) (dims : Dims) : Dims :=
  dims.map (fun p => if p.1 = n then (p.1, d) else p)

/-- The per-dimension override of `chatbot_main`: a Categorical is replaced
by a Categorical over the provided candidates, a Constant by a Constant
holding the single value; anything else trips the `assert` (here `none`). -/
def overrideDim (catVals : List String) (constVal : String) :
    Dimension → Option Dimension
  | .categorical _ => some (.categorical catVals)
  | .constant _ => some (.constant constVal)
  | .discrete _ => none

/-- The override of the "model_preset" and "prompt_preset" dimensions of
one (deep-copied) experiment setting, as done by `chatbot_main` lines
41-53; `none` models a `KeyError` or failed `assert`. -/
def overrideSetting (models : List String) (singleModel : String)
    (prompts : List String) (singlePrompt : String)
    (s : CombinatorialSearchSpace) : Option CombinatorialSearchSpace :=
  match lookupKey "model_preset" s.dimensions with
  | none => none
  | some dm =>
    match overrideDim models singleModel dm with
    | none => none
    | some dm2 =>
      let dims1 := setDim "model_preset" dm2 s.dimensions
      match lookupKey "prompt_preset" dims1 with
      | none => none
      | some dp =>
        match overrideDim prompts singlePrompt dp with
        | none => none
        | some dp2 => some ⟨setDim "prompt_preset" dp2 dims1⟩

/-- Lines 38-53 of `chatbot_main`: each selected experiment's preset space
is deep-copied out of the module-level configuration and its two preset
dimensions overridden; the configuration itself is a value here, so the
presets it holds are untouched by construction. -/
def experimentSettings (exps : List (String × CombinatorialSearchSpace))
    (names : List String) (models : List String) (singleModel : String)
    (prompts : List String) (singlePrompt : String) :
    Option (List CombinatorialSearchSpace) :=
  names.mapM (fun x =>
    (lookupKey x exps).bind (overrideSetting models singleModel prompts singlePrompt))

/-! ## Label/context split (examples/chatbot/main.py, lines 76-81) -/

/-- One chat message: a role and its content. -/
structure ChatTurn where
  role : String
  content : String
deriving DecidableEq

/-- A conversation: an ordered list of chat messages. -/
structure ChatMessages where
  messages : List ChatTurn
deriving DecidableEq

/-- Splitting one conversation: the last message's content becomes the
label and the preceding messages the context; an empty conversation makes
the `messages[-1]` access fail (here `none`). -/
def splitOne (c : ChatMessages) : Option (ChatMessages × String) :=
  match c.messages.getLast? with
  | none => none
  | some m => some (⟨c.messages.dropLast⟩, m.content)

/-- The split loop of `chatbot_main` over all processed conversations,
accumulating contexts and labels in order; fails if any conversation is
empty. -/
def splitData : List ChatMessages → Option (List ChatMessages × List String)
  | [] => some ([], [])
  | c :: cs =>
    match splitOne c with
    | none => none
    | some (ctx, lbl) =>
      match splitData cs with
      | none => none
      | some (ctxs, lbls) => some (ctx :: ctxs, lbl :: lbls)

/-! ## Command-line flag handling (examples/chatbot/main.py, lines 226-243) -/

/-- The `__main__` flag check: giving both skip flags raises `ValueError`
before `chatbot_main` runs; otherwise `chatbot_main` is invoked with
`do_prediction` and `do_visualization` as the negations of the flags. -/
def mainEntry (skipPrediction skipVisualization : Bool) :
    Except String (Bool × Bool) :=
  if skipPrediction && skipVisualization then
    .error "Cannot specify both --skip-prediction and --skip-visualization."
  else
    .ok (!skipPrediction, !skipVisualization)

end ZenoBuild

namespace ZenoBuild

/-! ## Helper lemmas -/

theorem updateMap_self {A : Type} [DecidableEq A] (a : A) (c : A → CacheRoot) :
    updateMap a (c a) c = c := by
  funext x
  simp only [updateMap]
  split
  · rename_i hx
    rw [hx]
  · rfl

theorem firstUntried_length {A : Type} (c : A → CacheRoot) :
    ∀ (l : List A) (a : A) (rs : List A),
      firstUntried c l = some (a, rs) → rs.length < l.length := by
  intro l
  induction l with
  | nil => intro a rs h; simp [firstUntried] at h
  | cons x xs ih =>
    intro a rs h
    rw [firstUntried] at h
    by_cases hx : untriedEntry (c x) = true
    · simp [hx] at h
      rw [← h.2]
      exact Nat.lt_succ_self _
    · simp [hx] at h
      exact Nat.lt_succ_of_lt (ih a rs h)

theorem firstUntried_untried {A : Type} (c : A → CacheRoot) :
    ∀ (l : List A) (a : A) (rs : List A),
      firstUntried c l = some (a, rs) → untriedEntry (c a) = true := by
  intro l
  induction l with
  | nil => intro a rs h; simp [firstUntried] at h
  | cons x xs ih =>
    intro a rs h
    rw [firstUntried] at h
    by_cases hx : untriedEntry (c x) = true
    · simp [hx] at h
      rw [← h.1]
      exact hx
    · simp [hx] at h
      exact ih a rs h

theorem firstUntried_none_iff {A : Type} (c : A → CacheRoot) :
    ∀ (l : List A),
      firstUntried c l = none ↔ ∀ a ∈ l, untriedEntry (c a) = false := by
  intro l
  induction l with
  | nil => simp [firstUntried]
  | cons x xs ih =>
    rw [firstUntried]
    by_cases hx : untriedEntry (c x) = true
    · simp [hx]
    · simp only [Bool.not_eq_true] at hx
      simp [hx, ih]

theorem get_parameters_nil {A : Type} (opt : ExhaustiveOptimizer A)
    (c : A → CacheRoot) : get_parameters opt c [] = none := by
  simp [get_parameters, firstUntried]

theorem get_parameters_some_length {A : Type} (opt : ExhaustiveOptimizer A)
    (c : A → CacheRoot) (rest : List A) (a : A) (rs : List A)
    (h : get_parameters opt c rest = some (a, rs)) : rs.length < rest.length := by
  simp only [get_parameters] at h
  split at h
  · exact absurd h (by simp)
  · exact firstUntried_length c rest a rs h

theorem get_parameters_some_untried {A : Type} (opt : ExhaustiveOptimizer A)
    (c : A → CacheRoot) (rest : List A) (a : A) (rs : List A)
    (h : get_parameters opt c rest = some (a, rs)) :
    untriedEntry (c a) = true := by
  simp only [get_parameters] at h
  split at h
  · exact absurd h (by simp)
  · exact firstUntried_untried c rest a rs h

theorem get_parameters_none_iff {A : Type} (opt : ExhaustiveOptimizer A)
    (c : A → CacheRoot) (rest : List A) :
    get_parameters opt c rest = none ↔
      (budgetMet opt c true = true ∨ ∀ a ∈ rest, untriedEntry (c a) = false) := by
  simp only [get_parameters]
  split
  · rename_i hb
    simp [hb]
  · rename_i hb
    rw [firstUntried_none_iff]
    simp [hb]

theorem evalPasses_count_zero {A : Type} [DecidableEq A] (m : MetricVal) (i : A) :
    ∀ (n : Nat) (ec : A → Option MetricVal) (v : MetricVal),
      ec i = some v → (evalPasses m i ec n).2 = 0 := by
  intro n
  induction n with
  | zero => intro ec v h; simp [evalPasses]
  | succ n ih =>
    intro ec v h
    simp only [evalPasses, evalStep, h, if_neg Bool.false_ne_true, Nat.zero_add]
    exact ih ec v h

/-! ## Claim theorems -/

/-- C1: when the output artifact `{file_root}.json` exists,
`make_predictions` returns the stored predictions, does not invoke the
backend, does not attempt the cache lock, and leaves the artifacts
untouched — irrespective of any lock or failure marker at the root. -/
theorem make_predictions_cache_hit (b : BackendOutcome) (s : CacheRoot)
    (preds : Predictions) (h : s.json = some preds) :
    (make_predictions b s).ret = .ok (some preds) ∧
    (make_predictions b s).backendInvoked = false ∧
    (make_predictions b s).lockAttempted = false ∧
    (make_predictions b s).final = s := by
  simp [make_predictions, h]

theorem make_predictions_cache_hit_witness :
    (CacheRoot.mk (some ["hi"]) true (some "tb")).json = some ["hi"] ∧
    ((make_predictions (.raises "boom")
        (CacheRoot.mk (some ["hi"]) true (some "tb"))).ret = .ok (some ["hi"]) ∧
      (make_predictions (.raises "boom")
        (CacheRoot.mk (some ["hi"]) true (some "tb"))).backendInvoked = false ∧
      (make_predictions (.raises "boom")
        (CacheRoot.mk (some ["hi"]) true (some "tb"))).lockAttempted = false ∧
      (make_predictions (.raises "boom")
        (CacheRoot.mk (some ["hi"]) true (some "tb"))).final =
        CacheRoot.mk (some ["hi"]) true (some "tb")) :=
  ⟨rfl, make_predictions_cache_hit (.raises "boom")
    (CacheRoot.mk (some ["hi"]) true (some "tb")) ["hi"] rfl⟩

/-- C2: with no output artifact and the lock already held by another
process, `make_predictions` returns `None` without invoking the backend and
without writing any artifact; the driver loop treats that `None` as a
normal skip signal — its body takes the skipped branch (printing the skip
message) and continues with unchanged cache and eval state instead of
raising. -/
theorem make_predictions_lock_contention {A : Type} [DecidableEq A]
    (b : BackendOutcome) (s : CacheRoot)
    (h1 : s.json = none) (h2 : s.lock = true) :
    (make_predictions b s).ret = .ok none ∧
    (make_predictions b s).backendInvoked = false ∧
    (make_predictions b s).final = s ∧
    ∀ (run : A → BackendOutcome) (metricOf : Predictions → MetricVal)
      (a : A) (c : A → CacheRoot) (ec : A → Option MetricVal),
      c a = s →
      loopBody run metricOf a c ec = .next .skipped c ec := by
  have hacq : cacheLockAcquire s = false := by
    simp [cacheLockAcquire, h2]
  refine ⟨?_, ?_, ?_, ?_⟩
  · simp [make_predictions, h1, hacq]
  · simp [make_predictions, h1, hacq]
  · simp [make_predictions, h1, hacq]
  · intro run metricOf a c ec hca
    simp only [loopBody, hca, make_predictions, h1, hacq, Bool.false_eq_true,
      if_false]
    rw [← hca, updateMap_self]

theorem make_predictions_lock_contention_witness :
    (CacheRoot.mk none true none).json = none ∧
    (CacheRoot.mk none true none).lock = true ∧
    (make_predictions (.ok ["x"]) (CacheRoot.mk none true none)).ret =
      .ok none ∧
    loopBody (fun _ : Nat => BackendOutcome.ok ["x"]) (fun _ => (0 : MetricVal))
      0 (fun _ => CacheRoot.mk none true none) (fun _ => none) =
      .next .skipped (fun _ => CacheRoot.mk none true none) (fun _ => none) :=
  ⟨rfl, rfl,
    (make_predictions_lock_contention (A := Nat) (.ok ["x"])
      (CacheRoot.mk none true none) rfl rfl).1,
    (make_predictions_lock_contention (.ok ["x"])
      (CacheRoot.mk none true none) rfl rfl).2.2.2
      (fun _ : Nat => BackendOutcome.ok ["x"]) (fun _ => (0 : MetricVal)) 0
      (fun _ => CacheRoot.mk none true none) (fun _ => none) rfl⟩

/-- C3: on a terminal attempt (no output artifact, lock acquired), a
backend exception writes the failure marker with the full traceback through
`fail_cache` and is then re-raised, with no output artifact written; a
backend success writes the output artifact and no failure marker — so after
any terminal attempt exactly one of the two artifacts exists, never both. -/
theorem make_predictions_terminal (b : BackendOutcome) (s : CacheRoot)
    (h1 : s.json = none) (h2 : cacheLockAcquire s = true) :
    (((make_predictions b s).final.json.isSome) ^^
      ((make_predictions b s).final.fail.isSome)) = true ∧
    (∀ tb, b = .raises tb →
      (make_predictions b s).final = fail_cache s tb ∧
      (make_predictions b s).final.fail = some tb ∧
      (make_predictions b s).final.json = none ∧
      (make_predictions b s).ret = .error tb) ∧
    (∀ preds, b = .ok preds →
      (make_predictions b s).final.json = some preds ∧
      (make_predictions b s).final.fail = none ∧
      (make_predictions b s).ret = .ok (some preds)) := by
  have hfail : s.fail = none := by
    simp only [cacheLockAcquire, Bool.and_eq_true, Bool.not_eq_true'] at h2
    exact Option.not_isSome_iff_eq_none.mp (by simp [h2.2])
  refine ⟨?_, ?_, ?_⟩
  · cases b <;> simp [make_predictions, h1, h2, fail_cache, hfail]
  · intro tb hb
    subst hb
    simp [make_predictions, h1, h2, fail_cache]
  · intro preds hb
    subst hb
    simp [make_predictions, h1, h2, hfail]

theorem make_predictions_terminal_witness :
    (CacheRoot.mk none false none).json = none ∧
    cacheLockAcquire (CacheRoot.mk none false none) = true ∧
    (make_predictions (.raises "tb") (CacheRoot.mk none false none)).final.fail
      = some "tb" ∧
    (make_predictions (.ok ["p"]) (CacheRoot.mk none false none)).final.json
      = some ["p"] :=
  ⟨rfl, rfl,
    ((make_predictions_terminal (.raises "tb") (CacheRoot.mk none false none)
      rfl rfl).2.1 "tb" rfl).2.1,
    ((make_predictions_terminal (.ok ["p"]) (CacheRoot.mk none false none)
      rfl rfl).2.2 ["p"] rfl).1⟩

/-- C4: once a failure marker is recorded and no output artifact exists,
the backend is never re-invoked for that fingerprint — `make_predictions`
returns the skip sentinel without touching the backend or the artifacts,
and `get_parameters` never yields that assignment — and the entry is
excluded from the reporting collection gathered without in-progress
entries. -/
theorem failed_entry_not_reattempted {A : Type} (s : CacheRoot) (tb : String)
    (h1 : s.fail = some tb) (h2 : s.json = none) :
    (∀ b, (make_predictions b s).backendInvoked = false ∧
      (make_predictions b s).ret = .ok none ∧
      (make_predictions b s).final = s) ∧
    (∀ (opt : ExhaustiveOptimizer A) (c : A → CacheRoot) (rest : List A)
        (a x : A) (rs : List A),
      c a = s → get_parameters opt c rest = some (x, rs) → x ≠ a) ∧
    (∀ (entries : List ChatEntry) (e : ChatEntry),
      e.fail = true → e.json = none →
      e ∉ get_valid_param_files false entries) := by
  have hacq : cacheLockAcquire s = false := by
    simp [cacheLockAcquire, h1]
  refine ⟨?_, ?_, ?_⟩
  · intro b
    refine ⟨?_, ?_, ?_⟩ <;> simp [make_predictions, h2, hacq]
  · intro opt c rest a x rs hca hgp hxa
    have hu : untriedEntry (c x) = true :=
      get_parameters_some_untried opt c rest x rs hgp
    rw [hxa, hca] at hu
    simp [untriedEntry, h1] at hu
  · intro entries e he1 he2
    simp [get_valid_param_files, List.mem_filter, he2]

theorem failed_entry_not_reattempted_witness :
    (CacheRoot.mk none false (some "tb")).fail = some "tb" ∧
    (CacheRoot.mk none false (some "tb")).json = none ∧
    (make_predictions (.ok ["p"])
      (CacheRoot.mk none false (some "tb"))).backendInvoked = false ∧
    (0 : Nat) ≠ 1 ∧
    ChatEntry.mk [] none false true ∉
      get_valid_param_files false [ChatEntry.mk [] none false true] :=
  ⟨rfl, rfl,
    ((failed_entry_not_reattempted (A := Nat)
      (CacheRoot.mk none false (some "tb")) "tb" rfl rfl).1 (.ok ["p"])).1,
    (failed_entry_not_reattempted (A := Nat)
      (CacheRoot.mk none false (some "tb")) "tb" rfl rfl).2.1
      (ExhaustiveOptimizer.mk [0] none)
      (fun n => if n = 0 then CacheRoot.mk none false none
        else CacheRoot.mk none false (some "tb"))
      [0] 1 0 [] (by decide) (by decide),
    (failed_entry_not_reattempted (A := Nat)
      (CacheRoot.mk none false (some "tb")) "tb" rfl rfl).2.2
      [ChatEntry.mk [] none false true] (ChatEntry.mk [] none false true)
      rfl rfl⟩

theorem sweepLoop_fst_le {A : Type} [DecidableEq A]
    (opt : ExhaustiveOptimizer A) (run : A → BackendOutcome)
    (metricOf : Predictions → MetricVal) :
    ∀ (n : Nat) (rest : List A), rest.length ≤ n →
      ∀ (c : A → CacheRoot) (ec : A → Option MetricVal),
        (sweepLoop opt run metricOf c ec rest).1 ≤ rest.length := by
  intro n
  induction n with
  | zero =>
    intro rest h c ec
    have hnil : rest = [] := List.eq_nil_of_length_eq_zero (Nat.le_zero.mp h)
    subst hnil
    rw [sweepLoop]
    split
    · simp
    · split
      · simp
      · rename_i a rs heq
        rw [get_parameters_nil] at heq
        exact absurd heq (by simp)
  | succ n ih =>
    intro rest h c ec
    rw [sweepLoop]
    split
    · simp
    · split
      · simp
      · rename_i a rs heq
        have hlen : rs.length < rest.length :=
          get_parameters_some_length opt c rest a rs heq
        cases hb : loopBody run metricOf a c ec with
        | raised tb c2 ec2 =>
          simp only
          omega
        | next act c2 ec2 =>
          simp only
          have hrec := ih rs (by omega) c2 ec2
          omega

/-- C5: the prediction loop of `chatbot_main` performs only finitely many
iterations — at most one per remaining enumerated assignment; it exits at
once when `is_complete` (with in-progress entries included) is true or when
`get_parameters` returns none, and `get_parameters` returns none exactly
when the trial budget is met or no untried assignment remains. -/
theorem sweepLoop_finite {A : Type} [DecidableEq A]
    (opt : ExhaustiveOptimizer A) (run : A → BackendOutcome)
    (metricOf : Predictions → MetricVal) (c : A → CacheRoot)
    (ec : A → Option MetricVal) (rest : List A) :
    (sweepLoop opt run metricOf c ec rest).1 ≤ rest.length ∧
    (is_complete opt c true = true →
      sweepLoop opt run metricOf c ec rest = (0, .complete)) ∧
    (is_complete opt c true = false → get_parameters opt c rest = none →
      sweepLoop opt run metricOf c ec rest = (0, .exhausted)) ∧
    (get_parameters opt c rest = none ↔
      (budgetMet opt c true = true ∨
        ∀ a ∈ rest, untriedEntry (c a) = false)) := by
  refine ⟨sweepLoop_fst_le opt run metricOf rest.length rest le_rfl c ec,
    ?_, ?_, get_parameters_none_iff opt c rest⟩
  · intro h
    rw [sweepLoop]
    simp [h]
  · intro h1 h2
    rw [sweepLoop]
    simp only [h1, Bool.false_eq_true, if_false]
    split
    · rfl
    · rename_i a rs heq
      rw [h2] at heq
      exact absurd heq (by simp)

theorem sweepLoop_finite_witness :
    (sweepLoop (ExhaustiveOptimizer.mk [0, 1] (some 1))
      (fun _ : Nat => BackendOutcome.ok ["p"]) (fun _ => (0 : MetricVal))
      (fun _ => CacheRoot.mk none false none) (fun _ => none) [0, 1]).1 ≤ 2 ∧
    sweepLoop (ExhaustiveOptimizer.mk [0] (some 1))
      (fun _ : Nat => BackendOutcome.ok ["p"]) (fun _ => (0 : MetricVal))
      (fun _ => CacheRoot.mk (some ["p"]) false none) (fun _ => none) [0] =
      (0, .complete) ∧
    sweepLoop (ExhaustiveOptimizer.mk [0] (some 5))
      (fun _ : Nat => BackendOutcome.ok ["p"]) (fun _ => (0 : MetricVal))
      (fun _ => CacheRoot.mk none false none) (fun _ => none) [] =
      (0, .exhausted) :=
  ⟨(sweepLoop_finite (ExhaustiveOptimizer.mk [0, 1] (some 1))
      (fun _ : Nat => BackendOutcome.ok ["p"]) (fun _ => (0 : MetricVal))
      (fun _ => CacheRoot.mk none false none) (fun _ => none) [0, 1]).1,
    (sweepLoop_finite (ExhaustiveOptimizer.mk [0] (some 1))
      (fun _ : Nat => BackendOutcome.ok ["p"]) (fun _ => (0 : MetricVal))
      (fun _ => CacheRoot.mk (some ["p"]) false none) (fun _ => none)
      [0]).2.1 (by decide),
    (sweepLoop_finite (ExhaustiveOptimizer.mk [0] (some 5))
      (fun _ : Nat => BackendOutcome.ok ["p"]) (fun _ => (0 : MetricVal))
      (fun _ => CacheRoot.mk none false none) (fun _ => none)
      []).2.2.1 (by decide) (by decide)⟩

/-- C6: the metric is a pure function of contexts, labels and predictions —
`calculate_metric` is literally the metric function's application, touching
no cache state — and the driver memoizes it per run id: with the eval
artifact present the stored scalar is read back and nothing is computed,
otherwise it is computed once and persisted, other ids untouched; over any
number of repeated sweep passes it is computed at most once. -/
theorem calculate_metric_memoized {A : Type} [DecidableEq A] {C : Type}
    (metricFn : List C → List String → Predictions → MetricVal)
    (contexts : List C) (labels : List String) (preds : Predictions)
    (m : MetricVal) (i : A) (ec : A → Option MetricVal)
    (hm : m = calculate_metric metricFn contexts labels preds) :
    calculate_metric metricFn contexts labels preds =
      metricFn contexts labels preds ∧
    (∀ v, ec i = some v → evalStep m i ec = (v, ec, false)) ∧
    (ec i = none →
      (evalStep m i ec).1 = m ∧
      (evalStep m i ec).2.2 = true ∧
      (evalStep m i ec).2.1 i = some m ∧
      ∀ x, x ≠ i → (evalStep m i ec).2.1 x = ec x) ∧
    (∀ n, (evalPasses m i ec n).2 ≤ 1) := by
  refine ⟨rfl, ?_, ?_, ?_⟩
  · intro v hv
    simp [evalStep, hv]
  · intro hv
    refine ⟨?_, ?_, ?_, ?_⟩
    · simp [evalStep, hv]
    · simp [evalStep, hv]
    · simp [evalStep, hv]
    · intro x hx
      simp [evalStep, hv, hx]
  · intro n
    cases hv : ec i with
    | some v =>
      rw [evalPasses_count_zero m i n ec v hv]
      exact Nat.zero_le 1
    | none =>
      cases n with
      | zero => simp [evalPasses]
      | succ k =>
        simp only [evalPasses, evalStep, hv]
        have hz : (evalPasses m i
            (fun x => if x = i then some m else ec x) k).2 = 0 :=
          evalPasses_count_zero m i k
            (fun x => if x = i then some m else ec x) m (by simp)
        rw [hz]
        simp

theorem calculate_metric_memoized_witness :
    calculate_metric (fun _ _ preds => (preds.length : MetricVal)) [0] ["l"]
      ["p"] = 1 ∧
    evalStep (1 : MetricVal) (0 : Nat) (fun _ => some (7 : MetricVal)) =
      (7, (fun _ => some (7 : MetricVal)), false) ∧
    ∀ n, (evalPasses (1 : MetricVal) (0 : Nat) (fun _ => none) n).2 ≤ 1 := by
  have h := calculate_metric_memoized
    (fun (_ : List Nat) (_ : List String) (preds : Predictions) =>
      (preds.length : MetricVal))
    [0] ["l"] ["p"] 1 (0 : Nat) (fun _ => none) (by norm_num [calculate_metric])
  have h2 := calculate_metric_memoized
    (fun (_ : List Nat) (_ : List String) (preds : Predictions) =>
      (preds.length : MetricVal))
    [0] ["l"] ["p"] 1 (0 : Nat) (fun _ => some (7 : MetricVal))
    (by norm_num [calculate_metric])
  refine ⟨?_, h2.2.1 7 rfl, h.2.2.2⟩
  rw [h.1]
  norm_num

/-- C7: the reporting collection contains exactly one record per valid
parameter file gathered with in-progress entries excluded — the valid files
are exactly the completed entries — each record carrying the loaded
parameters, the loaded predictions and the derived display name, and the
collection is sorted ascending by display name. -/
theorem buildResults_spec (nameOf : List (String × String) → String)
    (entries : List ChatEntry) :
    (buildResults nameOf entries).length =
      (get_valid_param_files false entries).length ∧
    List.Sorted (fun x y : ExperimentRun => x.name ≤ y.name)
      (buildResults nameOf entries) ∧
    (buildResults nameOf entries).Perm
      ((get_valid_param_files false entries).map (runOfEntry nameOf)) ∧
    (∀ e, e ∈ get_valid_param_files false entries ↔
      (e ∈ entries ∧ e.json.isSome = true)) ∧
    (∀ r, r ∈ buildResults nameOf entries →
      ∃ e, e ∈ entries ∧ e.json = some r.predictions ∧
        r.parameters = e.params ∧ r.name = nameOf e.params) := by
  have hperm : (buildResults nameOf entries).Perm
      ((get_valid_param_files false entries).map (runOfEntry nameOf)) :=
    List.perm_insertionSort _ _
  have hmem : ∀ e, e ∈ get_valid_param_files false entries ↔
      (e ∈ entries ∧ e.json.isSome = true) := by
    intro e
    simp [get_valid_param_files, List.mem_filter]
  refine ⟨?_, ?_, hperm, hmem, ?_⟩
  · rw [hperm.length_eq, List.length_map]
  · exact List.sorted_insertionSort _ _
  · intro r hr
    have hr2 := hperm.mem_iff.mp hr
    rw [List.mem_map] at hr2
    obtain ⟨e, he, rfl⟩ := hr2
    have he2 := (hmem e).mp he
    obtain ⟨p, hp⟩ := Option.isSome_iff_exists.mp he2.2
    refine ⟨e, he2.1, ?_, rfl, rfl⟩
    simp [runOfEntry, hp]

theorem buildResults_spec_witness :
    (buildResults (fun _ => "n")
      [ChatEntry.mk [("model", "a")] (some ["p1"]) false false,
       ChatEntry.mk [("model", "b")] none true false]).length =
      (get_valid_param_files false
        [ChatEntry.mk [("model", "a")] (some ["p1"]) false false,
         ChatEntry.mk [("model", "b")] none true false]).length ∧
    List.Sorted (fun x y : ExperimentRun => x.name ≤ y.name)
      (buildResults (fun _ => "n")
        [ChatEntry.mk [("model", "a")] (some ["p1"]) false false,
         ChatEntry.mk [("model", "b")] none true false]) :=
  ⟨(buildResults_spec (fun _ => "n")
      [ChatEntry.mk [("model", "a")] (some ["p1"]) false false,
       ChatEntry.mk [("model", "b")] none true false]).1,
    (buildResults_spec (fun _ => "n")
      [ChatEntry.mk [("model", "a")] (some ["p1"]) false false,
       ChatEntry.mk [("model", "b")] none true false]).2.1⟩

theorem lookupKey_setDim_ne (n m : String) (d : Dimension) (dims : Dims)
    (h : n ≠ m) :
    lookupKey n (setDim m d dims) = lookupKey n dims := by
  induction dims with
  | nil => rfl
  | cons p rest ih =>
    obtain ⟨k, v⟩ := p
    simp only [setDim, List.map_cons]
    by_cases hk : k = m
    · have hkn : ¬k = n := fun hkn => h (hkn ▸ hk)
      rw [if_pos hk]
      simp only [lookupKey, if_neg hkn]
      exact ih
    · rw [if_neg hk]
      simp only [lookupKey]
      by_cases hkn : k = n
      · rw [if_pos hkn, if_pos hkn]
      · rw [if_neg hkn, if_neg hkn]
        exact ih

theorem lookupKey_setDim_eq (m : String) (d d0 : Dimension) (dims : Dims)
    (h : lookupKey m dims = some d0) :
    lookupKey m (setDim m d dims) = some d := by
  induction dims with
  | nil => simp [lookupKey] at h
  | cons p rest ih =>
    obtain ⟨k, v⟩ := p
    simp only [setDim, List.map_cons]
    by_cases hk : k = m
    · rw [if_pos hk]
      simp only [lookupKey, if_pos hk]
    · rw [if_neg hk]
      simp only [lookupKey, if_neg hk] at h ⊢
      exact ih h

/-- C8: overriding the "model_preset" and "prompt_preset" dimensions of a
deep-copied experiment setting leaves every other dimension unchanged and
preserves the Categorical-vs-Constant kind of each overridden dimension — a
Categorical becomes a Categorical over the provided candidates, a Constant
a Constant holding the single value — while the source space the copy was
taken from still holds its original dimensions (value semantics of the deep
copy). -/
theorem overrideSetting_spec (models : List String) (singleModel : String)
    (prompts : List String) (singlePrompt : String)
    (s : CombinatorialSearchSpace) (dm dp : Dimension)
    (hm : lookupKey "model_preset" s.dimensions = some dm)
    (hp : lookupKey "prompt_preset" s.dimensions = some dp)
    (hdm : (∃ v, dm = Dimension.categorical v) ∨ ∃ v, dm = Dimension.constant v)
    (hdp : (∃ v, dp = Dimension.categorical v) ∨ ∃ v, dp = Dimension.constant v) :
    ∃ s2, overrideSetting models singleModel prompts singlePrompt s = some s2 ∧
      (∀ n, n ≠ "model_preset" → n ≠ "prompt_preset" →
        lookupKey n s2.dimensions = lookupKey n s.dimensions) ∧
      lookupKey "model_preset" s2.dimensions =
        overrideDim models singleModel dm ∧
      lookupKey "prompt_preset" s2.dimensions =
        overrideDim prompts singlePrompt dp ∧
      (∀ v, dm = Dimension.categorical v →
        lookupKey "model_preset" s2.dimensions =
          some (Dimension.categorical models)) ∧
      (∀ v, dm = Dimension.constant v →
        lookupKey "model_preset" s2.dimensions =
          some (Dimension.constant singleModel)) ∧
      (∀ v, dp = Dimension.categorical v →
        lookupKey "prompt_preset" s2.dimensions =
          some (Dimension.categorical prompts)) ∧
      (∀ v, dp = Dimension.constant v →
        lookupKey "prompt_preset" s2.dimensions =
          some (Dimension.constant singlePrompt)) ∧
      lookupKey "model_preset" s.dimensions = some dm ∧
      lookupKey "prompt_preset" s.dimensions = some dp := by
  obtain ⟨dm2, hdm2⟩ : ∃ dm2, overrideDim models singleModel dm = some dm2 := by
    rcases hdm with ⟨v, rfl⟩ | ⟨v, rfl⟩ <;> exact ⟨_, rfl⟩
  obtain ⟨dp2, hdp2⟩ : ∃ dp2, overrideDim prompts singlePrompt dp = some dp2 := by
    rcases hdp with ⟨v, rfl⟩ | ⟨v, rfl⟩ <;> exact ⟨_, rfl⟩
  have hlp1 : lookupKey "prompt_preset"
      (setDim "model_preset" dm2 s.dimensions) = some dp := by
    rw [lookupKey_setDim_ne _ _ _ _ (by decide)]
    exact hp
  have hset : overrideSetting models singleModel prompts singlePrompt s =
      some ⟨setDim "prompt_preset" dp2 (setDim "model_preset" dm2 s.dimensions)⟩ := by
    simp only [overrideSetting, hm, hdm2, hlp1, hdp2]
  have hmodl : lookupKey "model_preset"
      (setDim "prompt_preset" dp2 (setDim "model_preset" dm2 s.dimensions)) =
      some dm2 := by
    rw [lookupKey_setDim_ne _ _ _ _ (by decide)]
    exact lookupKey_setDim_eq _ _ dm _ hm
  have hprpl : lookupKey "prompt_preset"
      (setDim "prompt_preset" dp2 (setDim "model_preset" dm2 s.dimensions)) =
      some dp2 :=
    lookupKey_setDim_eq _ _ dp _ hlp1
  refine ⟨⟨setDim "prompt_preset" dp2 (setDim "model_preset" dm2 s.dimensions)⟩,
    hset, ?_, ?_, ?_, ?_, ?_, ?_, ?_, hm, hp⟩
  · intro n hn1 hn2
    rw [lookupKey_setDim_ne _ _ _ _ hn2, lookupKey_setDim_ne _ _ _ _ hn1]
  · rw [hmodl]
    exact hdm2.symm
  · rw [hprpl]
    exact hdp2.symm
  · intro v hv
    subst hv
    simp only [overrideDim] at hdm2
    rw [hmodl]
    exact hdm2.symm
  · intro v hv
    subst hv
    simp only [overrideDim] at hdm2
    rw [hmodl]
    exact hdm2.symm
  · intro v hv
    subst hv
    simp only [overrideDim] at hdp2
    rw [hprpl]
    exact hdp2.symm
  · intro v hv
    subst hv
    simp only [overrideDim] at hdp2
    rw [hprpl]
    exact hdp2.symm

theorem overrideSetting_spec_witness :
    ∃ s2, overrideSetting ["mA", "mB"] "mS" ["pA"] "pS"
        (CombinatorialSearchSpace.mk
          [("model_preset", Dimension.categorical ["m0"]),
           ("prompt_preset", Dimension.constant "p0"),
           ("temperature", Dimension.discrete [1])]) = some s2 ∧
      (∀ n, n ≠ "model_preset" → n ≠ "prompt_preset" →
        lookupKey n s2.dimensions = lookupKey n
          [("model_preset", Dimension.categorical ["m0"]),
           ("prompt_preset", Dimension.constant "p0"),
           ("temperature", Dimension.discrete [1])]) ∧
      lookupKey "model_preset" s2.dimensions =
        overrideDim ["mA", "mB"] "mS" (Dimension.categorical ["m0"]) ∧
      lookupKey "prompt_preset" s2.dimensions =
        overrideDim ["pA"] "pS" (Dimension.constant "p0") ∧
      (∀ v, Dimension.categorical ["m0"] = Dimension.categorical v →
        lookupKey "model_preset" s2.dimensions =
          some (Dimension.categorical ["mA", "mB"])) ∧
      (∀ v, Dimension.categorical ["m0"] = Dimension.constant v →
        lookupKey "model_preset" s2.dimensions =
          some (Dimension.constant "mS")) ∧
      (∀ v, Dimension.constant "p0" = Dimension.categorical v →
        lookupKey "prompt_preset" s2.dimensions =
          some (Dimension.categorical ["pA"])) ∧
      (∀ v, Dimension.constant "p0" = Dimension.constant v →
        lookupKey "prompt_preset" s2.dimensions =
          some (Dimension.constant "pS")) ∧
      lookupKey "model_preset"
        [("model_preset", Dimension.categorical ["m0"]),
         ("prompt_preset", Dimension.constant "p0"),
         ("temperature", Dimension.discrete [1])] =
        some (Dimension.categorical ["m0"]) ∧
      lookupKey "prompt_preset"
        [("model_preset", Dimension.categorical ["m0"]),
         ("prompt_preset", Dimension.constant "p0"),
         ("temperature", Dimension.discrete [1])] =
        some (Dimension.constant "p0") :=
  overrideSetting_spec ["mA", "mB"] "mS" ["pA"] "pS"
    (CombinatorialSearchSpace.mk
      [("model_preset", Dimension.categorical ["m0"]),
       ("prompt_preset", Dimension.constant "p0"),
       ("temperature", Dimension.discrete [1])])
    (Dimension.categorical ["m0"]) (Dimension.constant "p0")
    (by decide) (by decide)
    (Or.inl ⟨["m0"], rfl⟩) (Or.inr ⟨"p0", rfl⟩)

theorem splitData_eq_of_nonempty :
    ∀ (cs : List ChatMessages), (∀ c ∈ cs, c.messages ≠ []) →
      splitData cs =
        some (cs.map (fun c => ChatMessages.mk c.messages.dropLast),
          cs.map (fun c =>
            ((c.messages.getLast?).getD (ChatTurn.mk "" "")).content)) := by
  intro cs
  induction cs with
  | nil => intro _; rfl
  | cons c cs ih =>
    intro hne
    have hc : c.messages ≠ [] := hne c (by simp)
    have hs : ∃ m, c.messages.getLast? = some m := by
      rw [← Option.isSome_iff_exists, List.getLast?_isSome]
      exact hc
    obtain ⟨m, hm⟩ := hs
    simp only [splitData, splitOne, hm]
    rw [ih (fun x hx => hne x (by simp [hx]))]
    simp [hm]

theorem splitData_none_of_empty :
    ∀ (cs : List ChatMessages) (c : ChatMessages), c ∈ cs → c.messages = [] →
      splitData cs = none := by
  intro cs
  induction cs with
  | nil => intro c hc _; simp at hc
  | cons x xs ih =>
    intro c hc hce
    rcases List.mem_cons.mp hc with rfl | hmem
    · simp [splitData, splitOne, hce]
    · have hxs := ih c hmem hce
      cases hx : splitOne x with
      | none => simp [splitData, hx]
      | some p => simp [splitData, hx, hxs]

/-- C9: for conversations that all have at least one message, the split
step takes the last message's content as the label and the preceding
messages as the context, producing contexts and labels lists of the same
length as the conversations, each context one message shorter than its
conversation; a conversation with zero messages makes the split fail. -/
theorem splitData_split (cs : List ChatMessages) :
    ((∀ c ∈ cs, c.messages ≠ []) →
      splitData cs =
        some (cs.map (fun c => ChatMessages.mk c.messages.dropLast),
          cs.map (fun c =>
            ((c.messages.getLast?).getD (ChatTurn.mk "" "")).content)) ∧
      (cs.map (fun c => ChatMessages.mk c.messages.dropLast)).length =
        cs.length ∧
      (cs.map (fun c =>
        ((c.messages.getLast?).getD (ChatTurn.mk "" "")).content)).length =
        cs.length ∧
      ∀ c ∈ cs, (ChatMessages.mk c.messages.dropLast).messages.length + 1 =
        c.messages.length) ∧
    (∀ c ∈ cs, c.messages = [] → splitData cs = none) := by
  constructor
  · intro hne
    refine ⟨splitData_eq_of_nonempty cs hne, List.length_map _ _,
      List.length_map _ _, ?_⟩
    intro c hc
    have hpos : 0 < c.messages.length := List.length_pos.mpr (hne c hc)
    simp only [List.length_dropLast]
    omega
  · intro c hc hce
    exact splitData_none_of_empty cs c hc hce

theorem splitData_split_witness :
    splitData [ChatMessages.mk [ChatTurn.mk "user" "hi",
      ChatTurn.mk "assistant" "yo"]] =
      some ([ChatMessages.mk [ChatTurn.mk "user" "hi"]], ["yo"]) ∧
    splitData [ChatMessages.mk []] = none :=
  ⟨((splitData_split [ChatMessages.mk [ChatTurn.mk "user" "hi",
      ChatTurn.mk "assistant" "yo"]]).1 (by decide)).1,
    (splitData_split [ChatMessages.mk []]).2 (ChatMessages.mk [])
      (by simp) rfl⟩

/-- C10: giving both skip flags makes the entry point raise `ValueError`
before `chatbot_main` is invoked (no phase of work starts); with at most
one flag given, `chatbot_main` is invoked with the corresponding phase
disabled — `do_prediction` and `do_visualization` are the flags' negations. -/
theorem mainEntry_flags (skipPrediction skipVisualization : Bool) :
    (skipPrediction = true → skipVisualization = true →
      mainEntry skipPrediction skipVisualization =
        .error "Cannot specify both --skip-prediction and --skip-visualization.") ∧
    (¬(skipPrediction = true ∧ skipVisualization = true) →
      mainEntry skipPrediction skipVisualization =
        .ok (!skipPrediction, !skipVisualization)) := by
  constructor
  · intro h1 h2
    simp [mainEntry, h1, h2]
  · intro h
    cases skipPrediction <;> cases skipVisualization <;> simp_all [mainEntry]

theorem mainEntry_flags_witness :
    mainEntry true true =
      .error "Cannot specify both --skip-prediction and --skip-visualization." ∧
    mainEntry true false = .ok (false, true) ∧
    mainEntry false false = .ok (true, true) :=
  ⟨(mainEntry_flags true true).1 rfl rfl,
    (mainEntry_flags true false).2 (by simp),
    (mainEntry_flags false false).2 (by simp)⟩

end ZenoBuild
